import Mathlib

/-!
Verification development for the pythia-tools conversion-prediction pipeline.

The definitions below are shallow embeddings of the Python source:
  - src/conversion_prediction/run.py        (ConversionPredictionModel)
  - src/conversion_prediction/utils/config.py (FeatureColumns and column catalogues)
  - src/aggregate/utils/conversion_events.py  (CommerceParser)

A data frame with one row is modelled as an ordered association list of
(column name, rational value); dates and timestamps are integers
(days, resp. minutes); pandas NaN is modelled with Option.
-/

namespace Pythia

/-- A single-row data frame: ordered list of (column name, value).
Pandas allows duplicate column labels; lookup returns the first match,
which is the relevant one for the functions modelled here. -/
abbrev Frame := List (String × ℚ)

/-- Value of a named column, none when the column is absent
(first matching label when the name is duplicated). -/
def lookupColumn (f : Frame) (name : String) : Option ℚ :=
  (f.find? (fun p => p.1 = name)).map (fun p => p.2)

/-- Column lookup with a default for absent columns. -/
def lookupD (f : Frame) (name : String) (d : ℚ) : ℚ :=
  (lookupColumn f name).getD d

/-- Step 1 of align_prediction_frame_with_train_columns (run.py lines 979-984):
drop the prediction columns that were not used in training. -/
def alignStep1 (pred : Frame) (trainedColumns : List String) : Frame :=
  pred.filter (fun p => p.1 ∈ trainedColumns)

/-- Step 2 of align_prediction_frame_with_train_columns (run.py lines 986-989):
append zero-filled columns for the trained columns absent from the frame. -/
def alignStep2 (pred : Frame) (trainedColumns : List String) : Frame :=
  alignStep1 pred trainedColumns ++
    (trainedColumns.filter
      (fun c => ¬ c ∈ (alignStep1 pred trainedColumns).map Prod.fst)).map
      (fun c => (c, (0 : ℚ)))

/-- Embeds ConversionPredictionModel.align_prediction_frame_with_train_columns
(run.py lines 977-992). The trained-column list passed by the code is
self.variable_importances.index. Step 3 (line 992) reindexes the frame so the
columns appear exactly in the trained order. -/
def alignPredictionFrameWithTrainColumns (pred : Frame) (trainedColumns : List String) : Frame :=
  trainedColumns.map (fun c => (c, lookupD (alignStep2 pred trainedColumns) c 0))

/-- Embeds the call site in batch_predict (run.py line 952 with 977-992):
the frame is aligned against the index of the variable-importances series. -/
def batchPredictAlign (pred : Frame) (variableImportances : List (String × ℚ)) : Frame :=
  alignPredictionFrameWithTrainColumns pred (variableImportances.map Prod.fst)

theorem align_names (pred : Frame) (trainedColumns : List String) :
    (alignPredictionFrameWithTrainColumns pred trainedColumns).map Prod.fst = trainedColumns := by
  unfold alignPredictionFrameWithTrainColumns
  rw [List.map_map]
  exact List.map_id trainedColumns

theorem find?_in_zero_block (l : List String) (c : String) (hc : c ∈ l) :
    (l.map (fun x => (x, (0 : ℚ)))).find? (fun p => p.1 = c) = some (c, 0) := by
  induction l with
  | nil => cases hc
  | cons a t ih =>
    by_cases hac : a = c
    · subst hac
      simp [List.find?]
    · have hct : c ∈ t := by
        rcases List.mem_cons.mp hc with h | h
        · exact absurd h.symm hac
        · exact h
      simp only [List.map_cons, List.find?]
      have hdec : (decide ((a, (0 : ℚ)).1 = c)) = false := by
        simp [hac]
      rw [hdec]
      exact ih hct

/-- C2: the column aligner returns exactly the trained columns, in order;
trained columns absent from the scoring frame are zero-filled; scoring
columns absent from the trained list are dropped. -/
theorem align_prediction_frame_columns (pred : Frame) (trainedColumns : List String) :
    ((alignPredictionFrameWithTrainColumns pred trainedColumns).map Prod.fst = trainedColumns)
    ∧ (∀ c, c ∈ trainedColumns → ¬ c ∈ pred.map Prod.fst →
        (c, (0 : ℚ)) ∈ alignPredictionFrameWithTrainColumns pred trainedColumns)
    ∧ (∀ c, ¬ c ∈ trainedColumns →
        ¬ c ∈ (alignPredictionFrameWithTrainColumns pred trainedColumns).map Prod.fst) := by
  refine ⟨align_names pred trainedColumns, ?_, ?_⟩
  · intro c hct hcp
    have hstep1 : (alignStep1 pred trainedColumns).find? (fun p => p.1 = c) = none := by
      rw [List.find?_eq_none]
      intro x hx
      have hxp : x ∈ pred := List.mem_of_mem_filter hx
      intro hxc
      apply hcp
      have hx1 : x.1 = c := by simpa using hxc
      exact hx1 ▸ List.mem_map_of_mem Prod.fst hxp
    have hnot : ¬ c ∈ (alignStep1 pred trainedColumns).map Prod.fst := by
      intro hcmem
      rcases List.mem_map.mp hcmem with ⟨x, hx, hxc⟩
      have hxp : x ∈ pred := List.mem_of_mem_filter hx
      exact hcp (hxc ▸ List.mem_map_of_mem Prod.fst hxp)
    have hmem : c ∈ (trainedColumns.filter
        (fun x => ¬ x ∈ (alignStep1 pred trainedColumns).map Prod.fst)) := by
      rw [List.mem_filter]
      exact ⟨hct, by simpa using hnot⟩
    have hval : lookupD (alignStep2 pred trainedColumns) c 0 = 0 := by
      unfold lookupD lookupColumn alignStep2
      rw [List.find?_append, hstep1, find?_in_zero_block _ c hmem]
      rfl
    unfold alignPredictionFrameWithTrainColumns
    exact List.mem_map.mpr ⟨c, hct, by rw [hval]⟩
  · intro c hct hmem
    rw [align_names pred trainedColumns] at hmem
    exact hct hmem

/-- C2 witness: aligning the frame [(a,5),(x,7)] against the trained list
[a,b] keeps a, zero-fills b, and drops x. -/
theorem align_prediction_frame_columns_witness :
    ((alignPredictionFrameWithTrainColumns [("a", 5), ("x", 7)] ["a", "b"]).map Prod.fst
      = ["a", "b"])
    ∧ (("b", (0 : ℚ)) ∈ alignPredictionFrameWithTrainColumns [("a", 5), ("x", 7)] ["a", "b"])
    ∧ (¬ "x" ∈ (alignPredictionFrameWithTrainColumns [("a", 5), ("x", 7)] ["a", "b"]).map
        Prod.fst) :=
  ⟨(align_prediction_frame_columns [("a", 5), ("x", 7)] ["a", "b"]).1,
   (align_prediction_frame_columns [("a", 5), ("x", 7)] ["a", "b"]).2.1 "b"
     (by decide) (by decide),
   (align_prediction_frame_columns [("a", 5), ("x", 7)] ["a", "b"]).2.2 "x" (by decide)⟩

/-- C10: batch_predict aligns the prediction frame against exactly the index
of the loaded variable-importances series, so the aligned column list equals
that index; when the importances artifact is empty, every column is dropped
and the aligned frame has zero columns. -/
theorem batch_predict_align_importances_index :
    (∀ (pred : Frame) (variableImportances : List (String × ℚ)),
      (batchPredictAlign pred variableImportances).map Prod.fst
        = variableImportances.map Prod.fst)
    ∧ (∀ pred : Frame, batchPredictAlign pred [] = []) := by
  constructor
  · intro pred vi
    exact align_names pred (vi.map Prod.fst)
  · intro pred
    rfl

/-- Embeds the body of the per-column loop of
ConversionPredictionModel.encode_uncommon_categories (run.py lines 485-489):
a categorical column is a list of string values; every value whose relative
frequency in the column is strictly below 0.05 is rewritten to Other.  The
recode list is computed from the original column in one pass, so all
frequencies refer to the column before any rewriting.  The relative frequency
count v / length is written with mkRat, which builds the same rational. -/
def encodeUncommonCategories (col : List String) : List String :=
  col.map (fun v => if mkRat (col.count v) col.length < mkRat 1 20 then "Other" else v)

/-- Order-preserving deduplication, first occurrence kept, as pandas
Series.unique does (run.py line 499). -/
def uniqueFirst (l : List String) : List String :=
  l.foldl (fun acc v => if v ∈ acc then acc else acc ++ [v]) []

/-- Embeds the body of the per-column loop of
ConversionPredictionModel.generate_category_list_dict (run.py lines 498-499):
the frozen allowed-category list is the column's unique values plus Unknown. -/
def generateCategoryListForColumn (col : List String) : List String :=
  uniqueFirst col ++ ["Unknown"]

/-- Embeds ConversionPredictionModel.encode_unknown_categorie (run.py lines
501-510): any value outside the frozen category list becomes Unknown. -/
def encodeUnknownCategorie (categoryList : List String) (data : List String) : List String :=
  data.map (fun v => if v ∈ categoryList then v else "Unknown")

/-- Embeds ConversionPredictionModel.generate_dummy_columns_from_categorical_column
(run.py lines 512-527): substitute Unknown, build one 0/1 indicator column per
category of the frozen list named name_category, and drop the column labelled
name_Unknown (k-1 coding).  A value outside the category list yields 0 in every
indicator, as pd.Categorical maps it to NaN. -/
def generateDummyColumnsFromCategoricalColumn (categoryList : List String) (name : String)
    (data : List String) : List (String × List Nat) :=
  (categoryList.filter (fun c => ¬ (name ++ "_" ++ c = name ++ "_Unknown"))).map
    (fun c => (name ++ "_" ++ c,
      (encodeUnknownCategorie categoryList data).map (fun v => if v = c then 1 else 0)))

theorem mem_of_mem_uniqueFirst_aux (l acc : List String) (x : String)
    (hx : x ∈ l.foldl (fun a v => if v ∈ a then a else a ++ [v]) acc) :
    x ∈ acc ∨ x ∈ l := by
  induction l generalizing acc with
  | nil => exact Or.inl hx
  | cons v t ih =>
    simp only [List.foldl_cons] at hx
    rcases ih _ hx with h | h
    · by_cases hv : v ∈ acc
      · rw [if_pos hv] at h
        exact Or.inl h
      · rw [if_neg hv] at h
        rcases List.mem_append.mp h with h1 | h1
        · exact Or.inl h1
        · exact Or.inr (List.mem_cons.mpr (Or.inl (List.mem_singleton.mp h1)))
    · exact Or.inr (List.mem_cons.mpr (Or.inr h))

theorem mem_of_mem_uniqueFirst (l : List String) (x : String) (hx : x ∈ uniqueFirst l) :
    x ∈ l := by
  rcases mem_of_mem_uniqueFirst_aux l [] x hx with h | h
  · cases h
  · exact h

theorem string_append_left_cancel (a b c : String) (h : a ++ b = a ++ c) : b = c := by
  have hd : (a ++ b).data = (a ++ c).data := congrArg String.data h
  have hab : (a ++ b).data = a.data ++ b.data := rfl
  have hac : (a ++ c).data = a.data ++ c.data := rfl
  rw [hab, hac] at hd
  have : b.data = c.data := List.append_cancel_left hd
  cases b with
  | mk bd =>
    cases c with
    | mk cd =>
      simp only at this
      rw [this]

/-- C4 counterexample: in a column of 21 values where Other occurs once
(frequency 1/21, strictly below 5 percent), the rare value Other survives
rare-category collapsing, appears in the frozen category list, and yields its
own dummy column browser_Other — refuting the claim that a value with
frequency strictly below 5 percent never appears in the frozen list and never
yields its own dummy column. -/
theorem rare_category_counterexample :
    (mkRat ((List.replicate 20 "A" ++ ["Other"]).count "Other")
        (List.replicate 20 "A" ++ ["Other"]).length < mkRat 1 20)
    ∧ ("Other" ∈ generateCategoryListForColumn
        (encodeUncommonCategories (List.replicate 20 "A" ++ ["Other"])))
    ∧ ("browser_Other" ∈ (generateDummyColumnsFromCategoricalColumn
        (generateCategoryListForColumn
          (encodeUncommonCategories (List.replicate 20 "A" ++ ["Other"])))
        "browser"
        (encodeUncommonCategories (List.replicate 20 "A" ++ ["Other"]))).map Prod.fst) := by
  refine ⟨by decide, by decide, by decide⟩

/-- C4 amended: every category value with relative frequency strictly below
5 percent is rewritten to Other before the category list is frozen; hence a
rare value other than the two reserved labels Other and Unknown never appears
in the frozen category list and never yields its own dummy column.  (The
reserved labels are exceptions: a rare Other stays Other, and Unknown is
always appended to the frozen list.) -/
theorem rare_category_collapse_amended (col : List String) (v name : String)
    (hvOther : ¬ v = "Other") (hvUnknown : ¬ v = "Unknown")
    (hrare : mkRat (col.count v) col.length < mkRat 1 20) :
    (¬ v ∈ generateCategoryListForColumn (encodeUncommonCategories col))
    ∧ (∀ data : List String, ¬ (name ++ "_" ++ v) ∈
        (generateDummyColumnsFromCategoricalColumn
          (generateCategoryListForColumn (encodeUncommonCategories col))
          name data).map Prod.fst) := by
  have hnotin : ¬ v ∈ generateCategoryListForColumn (encodeUncommonCategories col) := by
    intro hmem
    rcases List.mem_append.mp hmem with h | h
    · have hrec : v ∈ encodeUncommonCategories col := mem_of_mem_uniqueFirst _ _ h
      rcases List.mem_map.mp hrec with ⟨w, hw, hwv⟩
      by_cases hwr : mkRat (col.count w) col.length < mkRat 1 20
      · rw [if_pos hwr] at hwv
        exact hvOther hwv.symm
      · rw [if_neg hwr] at hwv
        rw [hwv] at hwr
        exact hwr hrare
    · exact hvUnknown (List.mem_singleton.mp h)
  refine ⟨hnotin, ?_⟩
  intro data hmem
  rcases List.mem_map.mp hmem with ⟨p, hp, hpname⟩
  rcases List.mem_map.mp hp with ⟨c, hc, hcp⟩
  have hcfilter : c ∈ generateCategoryListForColumn (encodeUncommonCategories col) :=
    List.mem_of_mem_filter hc
  have hp1 : p.1 = name ++ "_" ++ c := by
    rw [← hcp]
  have hname : name ++ "_" ++ c = name ++ "_" ++ v := by
    rw [← hp1]
    exact hpname
  have hcv : c = v := string_append_left_cancel (name ++ "_") c v hname
  exact hnotin (hcv ▸ hcfilter)

/-- C4 amended witness: in a column of 21 values where B occurs once
(frequency below 5 percent), B is absent from the frozen category list and no
dummy column browser_B exists. -/
theorem rare_category_collapse_amended_witness :
    (¬ "B" ∈ generateCategoryListForColumn
        (encodeUncommonCategories (List.replicate 20 "A" ++ ["B"])))
    ∧ (∀ data : List String, ¬ ("browser" ++ "_" ++ "B") ∈
        (generateDummyColumnsFromCategoricalColumn
          (generateCategoryListForColumn
            (encodeUncommonCategories (List.replicate 20 "A" ++ ["B"])))
          "browser" data).map Prod.fst) :=
  rare_category_collapse_amended (List.replicate 20 "A" ++ ["B"]) "B" "browser"
    (by decide) (by decide) (by decide)

/-- C5: with Unknown in the frozen category list (as fit always arranges),
unknown-value substitution is idempotent, and dummy-encoding an
already-substituted series gives the same dummy columns as encoding the raw
series once. -/
theorem unknown_encoding_idempotent (categoryList : List String) (name : String)
    (data : List String) (hUnknown : "Unknown" ∈ categoryList) :
    (encodeUnknownCategorie categoryList (encodeUnknownCategorie categoryList data)
      = encodeUnknownCategorie categoryList data)
    ∧ (generateDummyColumnsFromCategoricalColumn categoryList name
        (encodeUnknownCategorie categoryList data)
      = generateDummyColumnsFromCategoricalColumn categoryList name data) := by
  have hpoint : ∀ v : String,
      (if (if v ∈ categoryList then v else "Unknown") ∈ categoryList then
        (if v ∈ categoryList then v else "Unknown") else "Unknown")
      = (if v ∈ categoryList then v else "Unknown") := by
    intro v
    by_cases hv : v ∈ categoryList
    · simp [hv]
    · rw [if_neg hv, if_pos hUnknown]
  have hidem : encodeUnknownCategorie categoryList (encodeUnknownCategorie categoryList data)
      = encodeUnknownCategorie categoryList data := by
    unfold encodeUnknownCategorie
    rw [List.map_map]
    apply List.map_congr_left
    intro v _
    exact hpoint v
  refine ⟨hidem, ?_⟩
  unfold generateDummyColumnsFromCategoricalColumn
  rw [hidem]

/-- C5 witness: with the frozen list [A, Unknown], substituting the series
[A, B] twice equals substituting once, and the dummy columns agree. -/
theorem unknown_encoding_idempotent_witness :
    (encodeUnknownCategorie ["A", "Unknown"]
        (encodeUnknownCategorie ["A", "Unknown"] ["A", "B"])
      = encodeUnknownCategorie ["A", "Unknown"] ["A", "B"])
    ∧ (generateDummyColumnsFromCategoricalColumn ["A", "Unknown"] "browser"
        (encodeUnknownCategorie ["A", "Unknown"] ["A", "B"])
      = generateDummyColumnsFromCategoricalColumn ["A", "Unknown"] "browser" ["A", "B"]) :=
  unknown_encoding_idempotent ["A", "Unknown"] "browser" ["A", "B"] (by decide)

/-- A user-profile row as far as the payment-history join needs it:
the profile date (days) and the list of associated user ids (strings,
possibly containing non-digit characters). -/
structure UserProfileRow where
  date : Int
  userIds : List String
deriving DecidableEq

/-- A row of the payment-history source (utils.mysql.get_payment_history_features):
user id, customer lifetime value, days since last subscription,
last subscription end date (days). -/
structure PaymentHistoryRow where
  userId : Nat
  clv : ℚ
  daysSinceLastSubscription : ℚ
  lastSubscriptionEnd : Int
deriving DecidableEq

/-- A profile row after the left merge with payment history; none models NaN
for unmatched rows.  The code drops last_subscription_end at the end of
get_user_history_features_from_mysql; it is kept here so the look-ahead
relation between the matched record and the row can be stated. -/
structure MergedHistoryRow where
  date : Int
  clv : Option ℚ
  daysSinceLastSubscription : Option ℚ
  lastSubscriptionEnd : Option Int
deriving DecidableEq

/-- First maximal run of digit characters of a string, none when the string
has no digit: the regex extract of one group of digits
(run.py line 298, .str.extract of the group [0-9]+). -/
def firstDigitRun (s : String) : Option String :=
  match (s.toList.dropWhile (fun c => ¬ c.isDigit)).takeWhile Char.isDigit with
  | [] => none
  | run => some (String.mk run)

/-- The merge key of a profile row (run.py lines 296-298): the digits
extracted from the first user id in the list.  The code indexes the list with
x[0]; an empty list raises there and the caller's except-branch zero-fills,
so the merge itself only ever sees rows with a first element. -/
def firstUserId (p : UserProfileRow) : Option String :=
  p.userIds.head?.bind firstDigitRun

/-- Left merge of one profile row with the payment-history rows on
first_user_id = str(int(user_id)) (run.py lines 315-321): one output row per
matching payment row, or a single NaN-filled row when nothing matches. -/
def mergeUserHistory (p : UserProfileRow) (payments : List PaymentHistoryRow) :
    List MergedHistoryRow :=
  match firstUserId p with
  | none => [⟨p.date, none, none, none⟩]
  | some uid =>
    match payments.filter (fun r => toString r.userId = uid) with
    | [] => [⟨p.date, none, none, none⟩]
    | ms => ms.map (fun r =>
        ⟨p.date, some r.clv, some r.daysSinceLastSubscription, some r.lastSubscriptionEnd⟩)

/-- Post-merge steps of get_user_history_features_from_mysql in code order
(run.py lines 323-338): fill NaN clv with 0.0; zero clv where
last_subscription_end >= date; fill NaN days_since_last_subscription with
1000.0; set days_since_last_subscription to 1000.0 where
last_subscription_end >= date. -/
def fillAndGuardHistoryRow (r : MergedHistoryRow) : MergedHistoryRow :=
  let r1 : MergedHistoryRow := { r with clv := some (r.clv.getD 0) }
  let r2 : MergedHistoryRow :=
    match r1.lastSubscriptionEnd with
    | some e => if r1.date ≤ e then { r1 with clv := some 0 } else r1
    | none => r1
  let r3 : MergedHistoryRow :=
    { r2 with daysSinceLastSubscription := some (r2.daysSinceLastSubscription.getD 1000) }
  match r3.lastSubscriptionEnd with
  | some e => if r3.date ≤ e then { r3 with daysSinceLastSubscription := some 1000 } else r3
  | none => r3

/-- Embeds ConversionPredictionModel.get_user_history_features_from_mysql
(run.py lines 284-342) for one profile row: merge with payment history, then
fill and apply the look-ahead guard. -/
def getUserHistoryFeatures (p : UserProfileRow) (payments : List PaymentHistoryRow) :
    List MergedHistoryRow :=
  (mergeUserHistory p payments).map fillAndGuardHistoryRow

theorem fillAndGuardHistoryRow_lastEnd (r : MergedHistoryRow) :
    (fillAndGuardHistoryRow r).lastSubscriptionEnd = r.lastSubscriptionEnd := by
  rcases r with ⟨d, c, ds, en⟩
  unfold fillAndGuardHistoryRow
  rcases en with _ | e
  · rfl
  · by_cases hle : d ≤ e <;> simp [hle]

theorem fillAndGuardHistoryRow_date (r : MergedHistoryRow) :
    (fillAndGuardHistoryRow r).date = r.date := by
  rcases r with ⟨d, c, ds, en⟩
  unfold fillAndGuardHistoryRow
  rcases en with _ | e
  · rfl
  · by_cases hle : d ≤ e <;> simp [hle]

theorem fillAndGuardHistoryRow_guard (r : MergedHistoryRow) (e : Int)
    (he : r.lastSubscriptionEnd = some e) (hle : r.date ≤ e) :
    (fillAndGuardHistoryRow r).clv = some 0
    ∧ (fillAndGuardHistoryRow r).daysSinceLastSubscription = some 1000 := by
  rcases r with ⟨d, c, ds, en⟩
  simp only at he hle
  subst he
  unfold fillAndGuardHistoryRow
  simp [hle]

theorem mergeUserHistory_date (p : UserProfileRow) (payments : List PaymentHistoryRow)
    (r : MergedHistoryRow) (hr : r ∈ mergeUserHistory p payments) : r.date = p.date := by
  unfold mergeUserHistory at hr
  rcases hfid : firstUserId p with _ | uid
  · rw [hfid] at hr
    rcases List.mem_singleton.mp hr with rfl
    rfl
  · rw [hfid] at hr
    have hr2 : r ∈ (match payments.filter (fun x => toString x.userId = uid) with
      | [] => [(⟨p.date, none, none, none⟩ : MergedHistoryRow)]
      | ms => ms.map (fun (x : PaymentHistoryRow) =>
          (⟨p.date, some x.clv, some x.daysSinceLastSubscription,
            some x.lastSubscriptionEnd⟩ : MergedHistoryRow))) := hr
    rcases hms : payments.filter (fun x => toString x.userId = uid) with _ | ⟨m, ms⟩
    · rw [hms] at hr2
      rcases List.mem_singleton.mp hr2 with rfl
      rfl
    · rw [hms] at hr2
      rcases List.mem_map.mp hr2 with ⟨x, _, hx⟩
      rw [← hx]

/-- C1: after the payment-history join, any output row whose matched record
has a last_subscription_end on or after the profile date carries the
missing-history sentinels clv = 0.0 and days_since_last_subscription =
1000.0, so no future subscription information leaks into a past row. -/
theorem payment_history_lookahead_guard (p : UserProfileRow)
    (payments : List PaymentHistoryRow) (out : MergedHistoryRow)
    (hout : out ∈ getUserHistoryFeatures p payments) (e : Int)
    (hend : out.lastSubscriptionEnd = some e) (hle : out.date ≤ e) :
    out.clv = some 0 ∧ out.daysSinceLastSubscription = some 1000 := by
  rcases List.mem_map.mp hout with ⟨r, hrmem, hr⟩
  subst hr
  have hend0 : r.lastSubscriptionEnd = some e := by
    rw [← fillAndGuardHistoryRow_lastEnd r]
    exact hend
  rw [fillAndGuardHistoryRow_date r] at hle
  exact fillAndGuardHistoryRow_guard r e hend0 hle

/-- C1 witness: a profile row of date 10 with first user id user_42 matches
the payment record of user 42 whose subscription ended on day 12 (after the
profile date); the joined row carries clv = 0 and days since = 1000. -/
theorem payment_history_lookahead_guard_witness :
    ((⟨10, some 0, some 1000, some 12⟩ : MergedHistoryRow) ∈
      getUserHistoryFeatures ⟨10, ["user_42"]⟩ [⟨42, 99, 3, 12⟩])
    ∧ ((⟨10, some 0, some 1000, some 12⟩ : MergedHistoryRow).clv = some 0
        ∧ (⟨10, some 0, some 1000, some 12⟩ : MergedHistoryRow).daysSinceLastSubscription
          = some 1000) :=
  ⟨by decide,
   payment_history_lookahead_guard ⟨10, ["user_42"]⟩ [⟨42, 99, 3, 12⟩]
     ⟨10, some 0, some 1000, some 12⟩ (by decide) 12 (by decide) (by decide)⟩

/-- Round half to even, the rounding used by Python round() on the slice
length len(dates) * split_ratio (run.py line 578).  Written with integer
arithmetic on the reduced numerator and denominator: the fractional part of q
exceeds one half exactly when twice (num - floor * den) exceeds den. -/
def bankersRound (q : ℚ) : Int :=
  if (q.den : Int) < 2 * (q.num - q.num.fdiv q.den * q.den) then q.num.fdiv q.den + 1
  else if 2 * (q.num - q.num.fdiv q.den * q.den) < (q.den : Int) then q.num.fdiv q.den
  else if q.num.fdiv q.den % 2 = 0 then q.num.fdiv q.den else q.num.fdiv q.den + 1

/-- The slice length int(round(len(dates) * split_ratio, 0)) of run.py line
578: the product n * q is formed as the exact rational (n * q.num) / q.den,
which is the same rational as the cast product. -/
def trainSliceLen (n : Nat) (q : ℚ) : Nat :=
  (bankersRound (mkRat (n * q.num) q.den)).toNat

/-- Maximum of a list of dates, none on the empty list: pandas Series.max,
which is NaN on an empty slice. -/
def sliceMax : List Int → Option Int
  | [] => none
  | d :: ds => some (ds.foldl max d)

/-- The daily pd.date_range(min_date, max_date) of run.py lines 571-576,
as integer days. -/
def dateRange (minDate maxDate : Int) : List Int :=
  (List.range (maxDate - minDate + 1).toNat).map (fun (i : Nat) => minDate + (i : Int))

/-- Embeds the TIME_BASED branch of
ConversionPredictionModel.create_train_test_transformations (run.py lines
570-580).  The profile rows are modelled by their date column; the contiguous
date range min_date..max_date is generated, the train cutoff is the maximum
of the first round(len(dates) * split_ratio) dates, and the train (resp.
test) indices are the row positions with date on or before (resp. after) the
cutoff.  When the slice is empty its maximum is NaN, both comparisons are
false, and both index sets are empty. -/
def timeBasedSplit (rows : List Int) (minDate maxDate : Int) (splitFraction : ℚ) :
    List Nat × List Nat :=
  match sliceMax ((dateRange minDate maxDate).take
      (trainSliceLen (dateRange minDate maxDate).length splitFraction)) with
  | none => ([], [])
  | some c =>
    ((List.range rows.length).filter (fun i => rows.getD i 0 ≤ c),
     (List.range rows.length).filter (fun i => c < rows.getD i 0))

theorem foldl_max_le_iff (l : List Int) (a x : Int) :
    l.foldl max a ≤ x ↔ a ≤ x ∧ ∀ y ∈ l, y ≤ x := by
  induction l generalizing a with
  | nil => simp
  | cons b t ih =>
    simp only [List.foldl_cons, ih, max_le_iff, List.mem_cons]
    constructor
    · rintro ⟨⟨hax, hbx⟩, ht⟩
      exact ⟨hax, fun y hy => hy.elim (fun hyb => hyb ▸ hbx) (ht y)⟩
    · rintro ⟨hax, hall⟩
      exact ⟨⟨hax, hall b (Or.inl rfl)⟩, fun y hy => hall y (Or.inr hy)⟩

theorem foldl_max_mem (l : List Int) (a : Int) :
    l.foldl max a = a ∨ l.foldl max a ∈ l := by
  induction l generalizing a with
  | nil => exact Or.inl rfl
  | cons b t ih =>
    simp only [List.foldl_cons]
    rcases ih (max a b) with h | h
    · rcases max_cases a b with ⟨hm, _⟩ | ⟨hm, _⟩
      · exact Or.inl (h.trans hm)
      · exact Or.inr (List.mem_cons.mpr (Or.inl (h.trans hm)))
    · exact Or.inr (List.mem_cons.mpr (Or.inr h))

theorem sliceMax_spec (l : List Int) (c : Int) (h : sliceMax l = some c) :
    c ∈ l ∧ ∀ d ∈ l, d ≤ c := by
  rcases l with _ | ⟨d, ds⟩
  · cases h
  · have hc : ds.foldl max d = c := by
      simpa [sliceMax] using h
    constructor
    · rcases foldl_max_mem ds d with hm | hm
      · have hcd : c = d := by
          rw [← hc, hm]
        rw [hcd]
        exact List.mem_cons_self d ds
      · exact List.mem_cons_of_mem d (hc ▸ hm)
    · intro x hx
      have hle : ds.foldl max d ≤ c := le_of_eq hc
      rcases (foldl_max_le_iff ds d c).mp hle with ⟨hdc, hall⟩
      rcases List.mem_cons.mp hx with h1 | h1
      · exact h1 ▸ hdc
      · exact hall x h1

theorem sliceMax_isSome (l : List Int) (hl : ¬ l = []) : ∃ c, sliceMax l = some c := by
  rcases l with _ | ⟨d, ds⟩
  · exact absurd rfl hl
  · exact ⟨ds.foldl max d, rfl⟩

/-- C3: for a contiguous date range with split fraction r, the time-based
split's cutoff is the maximum of the earliest round(r * n) dates of the range
(n the number of dates); the train indices are exactly the row positions with
date on or before the cutoff, the test indices exactly those with date after
it; the two index sets are disjoint and every train-row date is at most every
test-row date. -/
theorem time_based_split_spec (rows : List Int) (minDate maxDate : Int)
    (splitFraction : ℚ) (hd : minDate ≤ maxDate)
    (hk : 1 ≤ trainSliceLen (dateRange minDate maxDate).length splitFraction) :
    ∃ c, sliceMax ((dateRange minDate maxDate).take
        (trainSliceLen (dateRange minDate maxDate).length splitFraction)) = some c
      ∧ c ∈ (dateRange minDate maxDate).take
          (trainSliceLen (dateRange minDate maxDate).length splitFraction)
      ∧ (∀ d ∈ (dateRange minDate maxDate).take
          (trainSliceLen (dateRange minDate maxDate).length splitFraction), d ≤ c)
      ∧ (∀ i, i ∈ (timeBasedSplit rows minDate maxDate splitFraction).1 ↔
          i < rows.length ∧ rows.getD i 0 ≤ c)
      ∧ (∀ i, i ∈ (timeBasedSplit rows minDate maxDate splitFraction).2 ↔
          i < rows.length ∧ c < rows.getD i 0)
      ∧ (∀ i, ¬ (i ∈ (timeBasedSplit rows minDate maxDate splitFraction).1
          ∧ i ∈ (timeBasedSplit rows minDate maxDate splitFraction).2))
      ∧ (∀ i ∈ (timeBasedSplit rows minDate maxDate splitFraction).1,
          ∀ j ∈ (timeBasedSplit rows minDate maxDate splitFraction).2,
            rows.getD i 0 ≤ rows.getD j 0) := by
  have hlen : (dateRange minDate maxDate).length = (maxDate - minDate + 1).toNat := by
    unfold dateRange
    rw [List.length_map, List.length_range]
  have htake : ¬ (dateRange minDate maxDate).take
      (trainSliceLen (dateRange minDate maxDate).length splitFraction) = [] := by
    intro hnil
    rcases List.take_eq_nil_iff.mp hnil with h0 | h0
    · omega
    · have hlt := congrArg List.length h0
      rw [hlen, List.length_nil] at hlt
      omega
  rcases sliceMax_isSome _ htake with ⟨c, hc⟩
  rcases sliceMax_spec _ c hc with ⟨hcmem, hcmax⟩
  have hsplit : timeBasedSplit rows minDate maxDate splitFraction =
      ((List.range rows.length).filter (fun i => rows.getD i 0 ≤ c),
       (List.range rows.length).filter (fun i => c < rows.getD i 0)) := by
    unfold timeBasedSplit
    rw [hc]
  have htrain : ∀ i, i ∈ (timeBasedSplit rows minDate maxDate splitFraction).1 ↔
      i < rows.length ∧ rows.getD i 0 ≤ c := by
    intro i
    rw [hsplit]
    simp [List.mem_filter, List.mem_range]
  have htest : ∀ i, i ∈ (timeBasedSplit rows minDate maxDate splitFraction).2 ↔
      i < rows.length ∧ c < rows.getD i 0 := by
    intro i
    rw [hsplit]
    simp [List.mem_filter, List.mem_range]
  refine ⟨c, hc, hcmem, hcmax, htrain, htest, ?_, ?_⟩
  · intro i hi
    have ha := (htrain i).mp hi.1
    have hb := (htest i).mp hi.2
    exact absurd ha.2 (not_le.mpr hb.2)
  · intro i hi j hj
    have ha := (htrain i).mp hi
    have hb := (htest j).mp hj
    exact le_trans ha.2 (le_of_lt hb.2)

/-- C3 witness: three rows on days 5, 6, 7 with range 5..7 and fraction 2/3
give cutoff day 6, train indices those with date at most 6 and test indices
those after 6, disjoint and temporally ordered. -/
theorem time_based_split_spec_witness :
    ∃ c, sliceMax ((dateRange 5 7).take
        (trainSliceLen (dateRange 5 7).length (mkRat 2 3))) = some c
      ∧ c ∈ (dateRange 5 7).take
          (trainSliceLen (dateRange 5 7).length (mkRat 2 3))
      ∧ (∀ d ∈ (dateRange 5 7).take
          (trainSliceLen (dateRange 5 7).length (mkRat 2 3)), d ≤ c)
      ∧ (∀ i, i ∈ (timeBasedSplit [5, 6, 7] 5 7 (mkRat 2 3)).1 ↔
          i < ([5, 6, 7] : List Int).length ∧ ([5, 6, 7] : List Int).getD i 0 ≤ c)
      ∧ (∀ i, i ∈ (timeBasedSplit [5, 6, 7] 5 7 (mkRat 2 3)).2 ↔
          i < ([5, 6, 7] : List Int).length ∧ c < ([5, 6, 7] : List Int).getD i 0)
      ∧ (∀ i, ¬ (i ∈ (timeBasedSplit [5, 6, 7] 5 7 (mkRat 2 3)).1
          ∧ i ∈ (timeBasedSplit [5, 6, 7] 5 7 (mkRat 2 3)).2))
      ∧ (∀ i ∈ (timeBasedSplit [5, 6, 7] 5 7 (mkRat 2 3)).1,
          ∀ j ∈ (timeBasedSplit [5, 6, 7] 5 7 (mkRat 2 3)).2,
            ([5, 6, 7] : List Int).getD i 0 ≤ ([5, 6, 7] : List Int).getD j 0) :=
  time_based_split_spec [5, 6, 7] 5 7 (mkRat 2 3) (by decide) (by decide)

/-- The per-kind file resolution of
ConversionPredictionModel.load_model_related_constructs (run.py lines
882-889): the files of one artifact kind are modelled by their embedded
dates; the resolved date is the first one whose distance to the scoring date
equals the minimum distance, none when no file of the kind exists (the code
raises there). -/
def closestFileDate (fileDates : List Int) (scoringDate : Int) : Option Int :=
  match fileDates with
  | [] => none
  | d :: rest =>
    fileDates.find? (fun x => |x - scoringDate| =
      (rest.map (fun y => |y - scoringDate|)).foldl min |d - scoringDate|)

/-- Embeds ConversionPredictionModel.load_model_related_constructs (run.py
lines 872-914): resolve the closest file date for each of the four artifact
kinds (category lists, scaler, model, variable importances); when the four
resolved dates are not all equal, fail with an error naming the four dates
(run.py lines 890-896); otherwise succeed with the single common date whose
four artifacts are then loaded.  The outer none models the unhandled crash
when some kind has no file at all. -/
def loadModelRelatedConstructs (categoryListDates scalerDates modelDates
    variableImportancesDates : List Int) (scoringDate : Int) :
    Option (Except (Int × Int × Int × Int) Int) :=
  match closestFileDate categoryListDates scoringDate,
      closestFileDate scalerDates scoringDate,
      closestFileDate modelDates scoringDate,
      closestFileDate variableImportancesDates scoringDate with
  | some c, some s, some m, some v =>
    if c = s ∧ s = m ∧ m = v then some (Except.ok c)
    else some (Except.error (c, s, m, v))
  | _, _, _, _ => none

theorem foldl_min_le_iff (l : List Int) (a x : Int) :
    x ≤ l.foldl min a ↔ x ≤ a ∧ ∀ y ∈ l, x ≤ y := by
  induction l generalizing a with
  | nil => simp
  | cons b t ih =>
    simp only [List.foldl_cons, ih, le_min_iff, List.mem_cons]
    constructor
    · rintro ⟨⟨hax, hbx⟩, ht⟩
      exact ⟨hax, fun y hy => hy.elim (fun hyb => hyb ▸ hbx) (ht y)⟩
    · rintro ⟨hax, hall⟩
      exact ⟨⟨hax, hall b (Or.inl rfl)⟩, fun y hy => hall y (Or.inr hy)⟩

theorem foldl_min_mem (l : List Int) (a : Int) :
    l.foldl min a = a ∨ l.foldl min a ∈ l := by
  induction l generalizing a with
  | nil => exact Or.inl rfl
  | cons b t ih =>
    simp only [List.foldl_cons]
    rcases ih (min a b) with h | h
    · rcases min_cases a b with ⟨hm, _⟩ | ⟨hm, _⟩
      · exact Or.inl (h.trans hm)
      · exact Or.inr (List.mem_cons.mpr (Or.inl (h.trans hm)))
    · exact Or.inr (List.mem_cons.mpr (Or.inr h))

theorem foldl_min_le_self (l : List Int) (a : Int) : l.foldl min a ≤ a := by
  induction l generalizing a with
  | nil => exact le_refl a
  | cons b t ih => exact le_trans (ih (min a b)) (min_le_left a b)

theorem foldl_min_le_mem (l : List Int) : ∀ (a x : Int), x ∈ l → l.foldl min a ≤ x := by
  induction l with
  | nil =>
    intro a x hx
    cases hx
  | cons b t ih =>
    intro a x hx
    simp only [List.foldl_cons]
    rcases List.mem_cons.mp hx with h | h
    · subst h
      exact le_trans (foldl_min_le_self t (min a x)) (min_le_right a x)
    · exact ih (min a b) x h

theorem closestFileDate_spec (fileDates : List Int) (scoringDate : Int)
    (hne : fileDates ≠ []) :
    ∃ c, closestFileDate fileDates scoringDate = some c ∧ c ∈ fileDates
      ∧ ∀ d ∈ fileDates, |c - scoringDate| ≤ |d - scoringDate| := by
  rcases fileDates with _ | ⟨d, rest⟩
  · exact absurd rfl hne
  · have hmm : (rest.map (fun y => |y - scoringDate|)).foldl min |d - scoringDate|
        = |d - scoringDate|
      ∨ (rest.map (fun y => |y - scoringDate|)).foldl min |d - scoringDate|
        ∈ rest.map (fun y => |y - scoringDate|) :=
      foldl_min_mem _ _
    have hex : ∃ x ∈ d :: rest, |x - scoringDate| =
        (rest.map (fun y => |y - scoringDate|)).foldl min |d - scoringDate| := by
      rcases hmm with h | h
      · exact ⟨d, List.mem_cons_self d rest, h.symm⟩
      · rcases List.mem_map.mp h with ⟨x, hx, hxe⟩
        exact ⟨x, List.mem_cons_of_mem d hx, hxe⟩
    rcases hfind : (d :: rest).find? (fun x => |x - scoringDate| =
        (rest.map (fun y => |y - scoringDate|)).foldl min |d - scoringDate|) with _ | c
    · exfalso
      rcases hex with ⟨x, hx, hxe⟩
      have := List.find?_eq_none.mp hfind x hx
      simp only [decide_eq_true_eq] at this
      exact this hxe
    · refine ⟨c, ?_, List.mem_of_find?_eq_some hfind, ?_⟩
      · unfold closestFileDate
        exact hfind
      · have hc : |c - scoringDate| =
            (rest.map (fun y => |y - scoringDate|)).foldl min |d - scoringDate| := by
          have := List.find?_some hfind
          simpa using this
        intro x hx
        rw [hc]
        rcases List.mem_cons.mp hx with h | h
        · exact h ▸ foldl_min_le_self _ _
        · exact foldl_min_le_mem _ _ _ (List.mem_map_of_mem (fun y => |y - scoringDate|) h)

/-- C6: loading the model artifact bundle resolves, for each of the four
artifact kinds, the stored file date closest to the scoring date; when the
four resolved dates are not all equal the load fails with an error carrying
the four disagreeing dates and no bundle is returned, and when they all agree
the load succeeds with that single date. -/
theorem load_model_bundle_consistency (categoryListDates scalerDates modelDates
    variableImportancesDates : List Int) (scoringDate : Int)
    (h1 : categoryListDates ≠ []) (h2 : scalerDates ≠ [])
    (h3 : modelDates ≠ []) (h4 : variableImportancesDates ≠ []) :
    ∃ c s m v, closestFileDate categoryListDates scoringDate = some c
      ∧ closestFileDate scalerDates scoringDate = some s
      ∧ closestFileDate modelDates scoringDate = some m
      ∧ closestFileDate variableImportancesDates scoringDate = some v
      ∧ c ∈ categoryListDates
      ∧ (∀ d ∈ categoryListDates, |c - scoringDate| ≤ |d - scoringDate|)
      ∧ s ∈ scalerDates ∧ (∀ d ∈ scalerDates, |s - scoringDate| ≤ |d - scoringDate|)
      ∧ m ∈ modelDates ∧ (∀ d ∈ modelDates, |m - scoringDate| ≤ |d - scoringDate|)
      ∧ v ∈ variableImportancesDates
      ∧ (∀ d ∈ variableImportancesDates, |v - scoringDate| ≤ |d - scoringDate|)
      ∧ ((c = s ∧ s = m ∧ m = v) →
          loadModelRelatedConstructs categoryListDates scalerDates modelDates
            variableImportancesDates scoringDate = some (Except.ok c))
      ∧ (¬ (c = s ∧ s = m ∧ m = v) →
          loadModelRelatedConstructs categoryListDates scalerDates modelDates
            variableImportancesDates scoringDate
            = some (Except.error (c, s, m, v))) := by
  rcases closestFileDate_spec categoryListDates scoringDate h1 with ⟨c, hc, hcm, hcmin⟩
  rcases closestFileDate_spec scalerDates scoringDate h2 with ⟨s, hs, hsm, hsmin⟩
  rcases closestFileDate_spec modelDates scoringDate h3 with ⟨m, hm, hmm, hmmin⟩
  rcases closestFileDate_spec variableImportancesDates scoringDate h4 with ⟨v, hv, hvm, hvmin⟩
  have hload : loadModelRelatedConstructs categoryListDates scalerDates modelDates
      variableImportancesDates scoringDate
      = if c = s ∧ s = m ∧ m = v then some (Except.ok c)
        else some (Except.error (c, s, m, v)) := by
    unfold loadModelRelatedConstructs
    rw [hc, hs, hm, hv]
  refine ⟨c, s, m, v, hc, hs, hm, hv, hcm, hcmin, hsm, hsmin, hmm, hmmin, hvm, hvmin, ?_, ?_⟩
  · intro hall
    rw [hload, if_pos hall]
  · intro hnall
    rw [hload, if_neg hnall]

/-- C6 witness: with the four artifact kinds stored for dates 5 and 8 and
scoring date 6, each kind resolves date 5 (distance 1), the dates agree, and
the load succeeds with date 5. -/
theorem load_model_bundle_consistency_witness :
    ∃ c s m v, closestFileDate [5, 8] 6 = some c
      ∧ closestFileDate [5, 8] 6 = some s
      ∧ closestFileDate [5, 8] 6 = some m
      ∧ closestFileDate [5, 8] 6 = some v
      ∧ c ∈ ([5, 8] : List Int)
      ∧ (∀ d ∈ ([5, 8] : List Int), |c - 6| ≤ |d - 6|)
      ∧ s ∈ ([5, 8] : List Int) ∧ (∀ d ∈ ([5, 8] : List Int), |s - 6| ≤ |d - 6|)
      ∧ m ∈ ([5, 8] : List Int) ∧ (∀ d ∈ ([5, 8] : List Int), |m - 6| ≤ |d - 6|)
      ∧ v ∈ ([5, 8] : List Int)
      ∧ (∀ d ∈ ([5, 8] : List Int), |v - 6| ≤ |d - 6|)
      ∧ ((c = s ∧ s = m ∧ m = v) →
          loadModelRelatedConstructs [5, 8] [5, 8] [5, 8] [5, 8] 6 = some (Except.ok c))
      ∧ (¬ (c = s ∧ s = m ∧ m = v) →
          loadModelRelatedConstructs [5, 8] [5, 8] [5, 8] [5, 8] 6
            = some (Except.error (c, s, m, v))) :=
  load_model_bundle_consistency [5, 8] [5, 8] [5, 8] [5, 8] 6
    (by decide) (by decide) (by decide) (by decide)

/-- Pandas column assignment frame[name] = v: replace the value under every
occurrence of the label, append the column when the label is absent. -/
def setColumn (f : Frame) (name : String) (v : ℚ) : Frame :=
  if f.any (fun p => p.1 = name) then
    f.map (fun p => if p.1 = name then (name, v) else p)
  else f ++ [(name, v)]

/-- The except-branch of the global-context join in
ConversionPredictionModel.get_user_profiles_by_date (run.py lines 175-178):
on failure the four columns article_pageviews_count, sum_paid,
pageviews_count and avg_price are assigned 0.0.  Note the code fills
pageviews_count, not payment_count. -/
def fillContextColumnsOnFailure (f : Frame) : Frame :=
  ["article_pageviews_count", "sum_paid", "pageviews_count", "avg_price"].foldl
    (fun acc n => setColumn acc n 0) f

/-- The try/except around the global-context join (run.py lines 166-178).
Modelled from the spec for the part outside src: the collaborator
get_contextual_features_from_mysql calls utils.mysql.get_global_context,
whose module is not in src; per the spec it returns rows
(date, article_pageviews_count, sum_paid, payment_count), and the join is
modelled as an arbitrary fallible frame transformation ctxJoin.  On success
the joined frame is kept and the pipeline continues; on failure the error is
logged and the failure fill runs, and the pipeline continues with the
resulting frame instead of aborting. -/
def getUserProfilesContextStep (f : Frame) (ctxJoin : Frame → Except String Frame) : Frame :=
  match ctxJoin f with
  | Except.ok joined => joined
  | Except.error _ => fillContextColumnsOnFailure f

/-- C7 evaluation at the failing input: when the global-context join raises,
the run continues with the prior feature column intact and the four code
columns article_pageviews_count, sum_paid, pageviews_count and avg_price
zero-filled, but payment_count — one of the four contextual columns named by
the claim — is absent from the frame, refuting the claim that it is present
and zero-filled. -/
theorem context_failure_fill_evaluation :
    (lookupColumn (getUserProfilesContextStep [("pageview_count", 3)]
      (fun _ => Except.error "mysql connection failed")) "payment_count" = none)
    ∧ (lookupColumn (getUserProfilesContextStep [("pageview_count", 3)]
      (fun _ => Except.error "mysql connection failed")) "article_pageviews_count" = some 0)
    ∧ (lookupColumn (getUserProfilesContextStep [("pageview_count", 3)]
      (fun _ => Except.error "mysql connection failed")) "sum_paid" = some 0)
    ∧ (lookupColumn (getUserProfilesContextStep [("pageview_count", 3)]
      (fun _ => Except.error "mysql connection failed")) "pageviews_count" = some 0)
    ∧ (lookupColumn (getUserProfilesContextStep [("pageview_count", 3)]
      (fun _ => Except.error "mysql connection failed")) "avg_price" = some 0)
    ∧ (lookupColumn (getUserProfilesContextStep [("pageview_count", 3)]
      (fun _ => Except.error "mysql connection failed")) "pageview_count" = some 3) := by
  refine ⟨by decide, by decide, by decide, by decide, by decide, by decide⟩

/-- The hour-interval keys of config.py SUPPORTED_JSON_FIELDS_KEYS. -/
def SUPPORTED_HOUR_INTERVALS : List String :=
  ["00:00-00:59_03:00-03:59", "04:00-04:59_07:00-07:59", "08:00-08:59_11:00-11:59",
   "12:00-12:59_15:00-15:59", "16:00-16:59_19:00-19:59", "20:00-20:59_23:00-23:59"]

/-- The referer-medium keys of config.py SUPPORTED_JSON_FIELDS_KEYS. -/
def SUPPORTED_REFERER_MEDIUMS : List String :=
  ["direct", "email", "external", "internal", "search", "social"]

/-- The article-category keys of config.py SUPPORTED_JSON_FIELDS_KEYS. -/
def SUPPORTED_ARTICLE_CATEGORIES : List String :=
  ["", "blog", "ekonomika", "hlavna", "karikatury", "komentare", "kultura",
   "nezaradene", "pageview", "rodina-a-vztahy", "slovensko", "sport", "svet",
   "veda", "zdravie"]

/-- config.py NUMERIC_COLUMN_WINDOW_NAME_SUFFIXES_AND_PREFIXES as
(name-part-before, name-part-after) pairs. -/
def WINDOW_VARIANT_AFFIXES : List (String × String) :=
  [("", "_first_window_half"), ("", "_last_window_half"),
   ("relative_", "_change_first_and_second_half")]

/-- config.py build_out_profile_based_column_names: the json-profile column
groups, with the _normalized suffix when the flag is set. -/
def buildOutProfileBasedColumnNames (normalized : Bool) : List (String × List (List String)) :=
  [("referer_medium_pageviews",
     [SUPPORTED_REFERER_MEDIUMS.map (fun r =>
       "referer_medium_pageviews_" ++ r ++ "_count"
         ++ (if normalized then "_normalized" else ""))]),
   ("article_category_pageviews",
     [SUPPORTED_ARTICLE_CATEGORIES.map (fun a =>
       "article_category_pageviews_" ++ a ++ "_count"
         ++ (if normalized then "_normalized" else ""))]),
   ("hour_interval_pageviews",
     [(List.range 7).flatMap (fun dow => SUPPORTED_HOUR_INTERVALS.map (fun h =>
        "dow_" ++ toString dow ++ "_hours_" ++ h ++ "_count"
          ++ (if normalized then "_normalized" else ""))),
      (List.range 7).map (fun dow =>
        "dow_" ++ toString dow ++ "_count" ++ (if normalized then "_normalized" else "")),
      SUPPORTED_HOUR_INTERVALS.map (fun h =>
        "hours_" ++ h ++ "_count" ++ (if normalized then "_normalized" else ""))])]

/-- config.py create_window_variant_permuations: each column except
days_since_last_active yields the three window-variant names. -/
def createWindowVariantPermuations (columnList : List String) : List String :=
  columnList.flatMap (fun o =>
    if o = "days_since_last_active" then []
    else WINDOW_VARIANT_AFFIXES.map (fun ps => ps.1 ++ o ++ ps.2))

/-- config.py unpack_profile_based_fields: flatten the group dictionary. -/
def unpackProfileBasedFields (d : List (String × List (List String))) : List String :=
  d.flatMap (fun p => p.2.flatten)

/-- config.py FeatureColumns.add_normalized_profile_features_version (lines
182-188): appends the window-variant permutations of the _normalized json
column names to numeric_columns_with_window_variants. -/
def addNormalizedProfileFeaturesVersion (numericColumnsWithWindowVariants : List String) :
    List String :=
  numericColumnsWithWindowVariants ++
    createWindowVariantPermuations (unpackProfileBasedFields
      (buildOutProfileBasedColumnNames true))

/-- The three normalization policies of utils.enums.NormalizedFeatureHandling
as used by run.py (REPLACE_WITH, ADD, IGNORE). -/
inductive NormalizedFeatureHandling where
  | REPLACE_WITH
  | ADD
  | IGNORE
deriving DecidableEq

/-- Embeds one iteration of the column-set loop of
ConversionPredictionModel.introduce_row_wise_normalized_features (run.py
lines 392-413) together with the registry update of config.py lines 182-188.
The normalized data is the external row_wise_normalization of the group
values (passed in as rowNorm, utils.data_transformations is a collaborator),
and its columns are named exactly column_set (run.py line 396).  Under
REPLACE_WITH the raw group columns are dropped and the normalized frame is
concatenated; under ADD the registry is extended with the _normalized window
variants and the normalized frame is concatenated onto the unreduced frame;
any other handling raises.  Returns the frame and the registry numeric
column list. -/
def introduceRowWiseNormalizedFeaturesStep (f : Frame) (columnSet : List String)
    (rowNorm : List ℚ → List ℚ) (handling : NormalizedFeatureHandling)
    (numericColumnsWithWindowVariants : List String) :
    Except String (Frame × List String) :=
  match handling with
  | NormalizedFeatureHandling.REPLACE_WITH =>
    Except.ok ((f.filter (fun p => ¬ p.1 ∈ columnSet)) ++
      columnSet.zip (rowNorm (columnSet.map (fun c => lookupD f c 0))),
      numericColumnsWithWindowVariants)
  | NormalizedFeatureHandling.ADD =>
    Except.ok (f ++ columnSet.zip (rowNorm (columnSet.map (fun c => lookupD f c 0))),
      addNormalizedProfileFeaturesVersion numericColumnsWithWindowVariants)
  | NormalizedFeatureHandling.IGNORE =>
    Except.error "Unknown normalization handling parameter"

/-- The referer-medium column group as the code builds it (the first group of
column_sets in run.py line 390). -/
def refererGroupColumns : List String :=
  SUPPORTED_REFERER_MEDIUMS.map (fun r => "referer_medium_pageviews_" ++ r ++ "_count")

/-- The column names of a frame-and-registry result, empty on the error
case. -/
def resultFrameNames (e : Except String (Frame × List String)) : List String :=
  match e with
  | Except.ok p => p.1.map Prod.fst
  | Except.error _ => []

/-- The registry numeric-column list of a frame-and-registry result, empty on
the error case. -/
def resultRegistry (e : Except String (Frame × List String)) : List String :=
  match e with
  | Except.ok p => p.2
  | Except.error _ => []

set_option maxRecDepth 8000 in
/-- C8 evaluation at the failing input: normalizing the referer group under
policy ADD keeps the raw columns but appends the normalized columns under the
same raw names, so the frame has every group name twice and no column at all
carries the _normalized suffix, while the registry registers
_normalized-suffixed window-variant names that match no frame column —
refuting the claim that ADD appends the normalized versions under distinct
suffixed names. -/
theorem normalized_add_policy_evaluation :
    (resultFrameNames (introduceRowWiseNormalizedFeaturesStep
        (refererGroupColumns.map (fun c => (c, (1 : ℚ)))) refererGroupColumns
        (fun vs => vs) NormalizedFeatureHandling.ADD [])
      = refererGroupColumns ++ refererGroupColumns)
    ∧ ("referer_medium_pageviews_direct_count_normalized_first_window_half" ∈
        resultRegistry (introduceRowWiseNormalizedFeaturesStep
          (refererGroupColumns.map (fun c => (c, (1 : ℚ)))) refererGroupColumns
          (fun vs => vs) NormalizedFeatureHandling.ADD []))
    ∧ (∀ c ∈ resultRegistry (introduceRowWiseNormalizedFeaturesStep
          (refererGroupColumns.map (fun c => (c, (1 : ℚ)))) refererGroupColumns
          (fun vs => vs) NormalizedFeatureHandling.ADD []),
        ¬ c ∈ resultFrameNames (introduceRowWiseNormalizedFeaturesStep
          (refererGroupColumns.map (fun c => (c, (1 : ℚ)))) refererGroupColumns
          (fun vs => vs) NormalizedFeatureHandling.ADD [])) := by
  refine ⟨by decide, by decide, by decide⟩

/-- One commerce event row (conversion_events.py class Commerce): browser
id, event time (minutes), user id, funnel step. -/
structure Commerce where
  browserId : String
  time : Int
  userId : String
  step : String
deriving DecidableEq

/-- The aggregated_browser_days table: one row per (browser_id, date) with
the next_7_days_event label and the next_event_time column. -/
abbrev AggregatedTable := List ((String × Int) × (String × Option Int))

/-- The row of a (browser_id, date) key, none when the day has no row. -/
def tableLookup (t : AggregatedTable) (b : String) (d : Int) : Option (String × Option Int) :=
  (t.find? (fun r => r.1.1 = b ∧ r.1.2 = d)).map (fun r => r.2)

/-- Embeds CommerceParser.__mark_conversion_event (conversion_events.py lines
87-105): delete the (browser, cur_date) row, then set next_7_days_event to
conversion and next_event_time to the purchase time on the seven days
cur_date-7 .. cur_date-1 of that browser whose label is still
no_conversion. -/
def markConversionEvent (t : AggregatedTable) (b : String) (curDate : Int)
    (purchaseTime : Int) : AggregatedTable :=
  (t.filter (fun r => ¬ (r.1.1 = b ∧ r.1.2 = curDate))).map
    (fun r => if r.1.1 = b ∧ curDate - 7 ≤ r.1.2 ∧ r.1.2 ≤ curDate - 1
        ∧ r.2.1 = "no_conversion"
      then (r.1, ("conversion", some purchaseTime)) else r)

/-- The mutable state of CommerceParser while scanning a commerce file:
the user_id to payment time and user_id to browser_id dictionaries, the
aggregated table being updated, and the events collected for the events
table. -/
structure ParserState where
  paymentTime : List (String × Int)
  browserIdOf : List (String × String)
  table : AggregatedTable
  events : List (String × String × Int × String)
deriving DecidableEq

/-- Dictionary lookup, newest binding first. -/
def dictLookup {α : Type} (l : List (String × α)) (k : String) : Option α :=
  (l.find? (fun p => p.1 = k)).map (fun p => p.2)

/-- One iteration of the event loop of CommerceParser.process_file
(conversion_events.py lines 60-82): a payment event with a browser id and a
user id records the payment time and browser; a purchase event of a known
payer whose time minus five minutes is at most the recorded payment time
marks a conversion and stores the event row. -/
def processCommerce (curDate : Int) (st : ParserState) (c : Commerce) : ParserState :=
  if c.step = "payment" ∧ ¬ c.browserId = "" ∧ ¬ c.userId = "" then
    { st with paymentTime := (c.userId, c.time) :: st.paymentTime,
              browserIdOf := (c.userId, c.browserId) :: st.browserIdOf }
  else if c.step = "purchase" ∧ ¬ c.userId = "" then
    match dictLookup st.paymentTime c.userId with
    | none => st
    | some pt =>
      if c.time - 5 ≤ pt then
        { st with
          table := markConversionEvent st.table
            ((dictLookup st.browserIdOf c.userId).getD "") curDate c.time,
          events := st.events ++
            [(c.userId, (dictLookup st.browserIdOf c.userId).getD "", c.time, "conversion")] }
      else st
  else st

/-- Stable insertion into a time-sorted commerce list. -/
def insertByTime (c : Commerce) : List Commerce → List Commerce
  | [] => [c]
  | d :: ds => if d.time ≤ c.time then d :: insertByTime c ds else c :: d :: ds

/-- Stable sort of the commerce rows by time, as the Python list sort on the
time key (conversion_events.py line 58). -/
def sortByTime : List Commerce → List Commerce
  | [] => []
  | c :: cs => insertByTime c (sortByTime cs)

/-- Embeds CommerceParser.process_file (conversion_events.py lines 55-85):
sort the file rows by time and scan them, starting from empty dictionaries,
the current aggregated table, and no collected events. -/
def processFile (data : List Commerce) (curDate : Int) (t : AggregatedTable) : ParserState :=
  (sortByTime data).foldl (processCommerce curDate) ⟨[], [], t, []⟩

theorem markConversionEvent_lookup (t : AggregatedTable) (b : String) (curDate : Int)
    (purchaseTime : Int) (b' : String) (d : Int) :
    tableLookup (markConversionEvent t b curDate purchaseTime) b' d =
      if b' = b ∧ d = curDate then none
      else (tableLookup t b' d).map
        (fun v => if b' = b ∧ curDate - 7 ≤ d ∧ d ≤ curDate - 1 ∧ v.1 = "no_conversion"
          then ("conversion", some purchaseTime) else v) := by
  induction t with
  | nil =>
    simp only [markConversionEvent, List.filter_nil, List.map_nil, tableLookup,
      List.find?_nil, Option.map_none]
    split <;> rfl
  | cons r rest ih =>
    by_cases hdel : r.1.1 = b ∧ r.1.2 = curDate
    · have hfilter : (r :: rest).filter (fun x => ¬ (x.1.1 = b ∧ x.1.2 = curDate))
          = rest.filter (fun x => ¬ (x.1.1 = b ∧ x.1.2 = curDate)) := by
        simp [List.filter_cons, hdel]
      by_cases hkey : r.1.1 = b' ∧ r.1.2 = d
      · have hbd : b' = b ∧ d = curDate := by
          exact ⟨hkey.1.symm.trans hdel.1, hkey.2.symm.trans hdel.2⟩
        unfold markConversionEvent at ih ⊢
        rw [hfilter, ih, if_pos hbd]
        rw [if_pos hbd]
      · have hlk : tableLookup (r :: rest) b' d = tableLookup rest b' d := by
          unfold tableLookup
          rw [List.find?_cons_of_neg]
          simp only [decide_eq_true_eq]
          intro hc
          exact hkey ⟨hc.1, hc.2⟩
        unfold markConversionEvent at ih ⊢
        rw [hfilter, ih, hlk]
    · have hfilter : (r :: rest).filter (fun x => ¬ (x.1.1 = b ∧ x.1.2 = curDate))
          = r :: rest.filter (fun x => ¬ (x.1.1 = b ∧ x.1.2 = curDate)) := by
        simp [List.filter_cons, hdel]
      by_cases hkey : r.1.1 = b' ∧ r.1.2 = d
      · have hnbd : ¬ (b' = b ∧ d = curDate) := by
          intro hbd
          exact hdel ⟨hkey.1.trans hbd.1, hkey.2.trans hbd.2⟩
        have hlk : tableLookup (r :: rest) b' d = some r.2 := by
          unfold tableLookup
          rw [List.find?_cons_of_pos]
          · rfl
          · simp only [decide_eq_true_eq]
            exact hkey
        unfold markConversionEvent
        rw [hfilter, hlk, if_neg hnbd]
        by_cases hcond : r.1.1 = b ∧ curDate - 7 ≤ r.1.2 ∧ r.1.2 ≤ curDate - 1
            ∧ r.2.1 = "no_conversion"
        · have hcond2 : b' = b ∧ curDate - 7 ≤ d ∧ d ≤ curDate - 1
              ∧ r.2.1 = "no_conversion" := by
            refine ⟨hkey.1.symm.trans hcond.1, ?_, ?_, hcond.2.2.2⟩
            · rw [← hkey.2]
              exact hcond.2.1
            · rw [← hkey.2]
              exact hcond.2.2.1
          unfold tableLookup
          rw [List.map_cons, if_pos hcond, List.find?_cons_of_pos]
          · simp only [Option.map_some']
            rw [if_pos hcond2]
          · simp only [decide_eq_true_eq]
            exact ⟨hkey.1, hkey.2⟩
        · have hcond2 : ¬ (b' = b ∧ curDate - 7 ≤ d ∧ d ≤ curDate - 1
              ∧ r.2.1 = "no_conversion") := by
            intro hc
            apply hcond
            refine ⟨hkey.1.trans hc.1, ?_, ?_, hc.2.2.2⟩
            · rw [hkey.2]
              exact hc.2.1
            · rw [hkey.2]
              exact hc.2.2.1
          unfold tableLookup
          rw [List.map_cons, if_neg hcond, List.find?_cons_of_pos]
          · simp only [Option.map_some']
            rw [if_neg hcond2]
          · simp only [decide_eq_true_eq]
            exact hkey
      · have hlk : tableLookup (r :: rest) b' d = tableLookup rest b' d := by
          unfold tableLookup
          rw [List.find?_cons_of_neg]
          simp only [decide_eq_true_eq]
          intro hc
          exact hkey ⟨hc.1, hc.2⟩
        unfold markConversionEvent at ih ⊢
        rw [hfilter, hlk]
        have hmapcons : ((r :: rest.filter (fun x => ¬ (x.1.1 = b ∧ x.1.2 = curDate))).map
            (fun x => if x.1.1 = b ∧ curDate - 7 ≤ x.1.2 ∧ x.1.2 ≤ curDate - 1
                ∧ x.2.1 = "no_conversion"
              then (x.1, ("conversion", some purchaseTime)) else x))
            = (if r.1.1 = b ∧ curDate - 7 ≤ r.1.2 ∧ r.1.2 ≤ curDate - 1
                ∧ r.2.1 = "no_conversion"
              then (r.1, ("conversion", some purchaseTime)) else r) ::
              ((rest.filter (fun x => ¬ (x.1.1 = b ∧ x.1.2 = curDate))).map
                (fun x => if x.1.1 = b ∧ curDate - 7 ≤ x.1.2 ∧ x.1.2 ≤ curDate - 1
                    ∧ x.2.1 = "no_conversion"
                  then (x.1, ("conversion", some purchaseTime)) else x)) := by
          rw [List.map_cons]
        rw [hmapcons]
        have hhead : ¬ ((if r.1.1 = b ∧ curDate - 7 ≤ r.1.2 ∧ r.1.2 ≤ curDate - 1
            ∧ r.2.1 = "no_conversion"
          then (r.1, ("conversion", some purchaseTime)) else r).1.1 = b'
          ∧ (if r.1.1 = b ∧ curDate - 7 ≤ r.1.2 ∧ r.1.2 ≤ curDate - 1
            ∧ r.2.1 = "no_conversion"
          then (r.1, ("conversion", some purchaseTime)) else r).1.2 = d) := by
          split <;> exact fun hc => hkey ⟨hc.1, hc.2⟩
        unfold tableLookup
        rw [List.find?_cons_of_neg]
        · exact ih
        · simp only [decide_eq_true_eq]
          exact hhead

theorem markConversionEvent_marks (t : AggregatedTable) (b : String) (curDate : Int)
    (purchaseTime : Int) (d : Int) (nt : Option Int)
    (h7 : curDate - 7 ≤ d) (h1 : d ≤ curDate - 1)
    (hlk : tableLookup t b d = some ("no_conversion", nt)) :
    tableLookup (markConversionEvent t b curDate purchaseTime) b d
      = some ("conversion", some purchaseTime) := by
  rw [markConversionEvent_lookup]
  have hne : ¬ (b = b ∧ d = curDate) := by
    intro hc
    omega
  rw [if_neg hne, hlk]
  simp [h7, h1]

theorem markConversionEvent_preserves (t : AggregatedTable) (b : String) (curDate : Int)
    (purchaseTime : Int) (b' : String) (d : Int) (lbl : String) (nt : Option Int)
    (hlbl : ¬ lbl = "no_conversion") (hd : ¬ d = curDate)
    (hlk : tableLookup t b' d = some (lbl, nt)) :
    tableLookup (markConversionEvent t b curDate purchaseTime) b' d = some (lbl, nt) := by
  rw [markConversionEvent_lookup]
  have hne : ¬ (b' = b ∧ d = curDate) := by
    intro hc
    exact hd hc.2
  rw [if_neg hne, hlk]
  simp only [Option.map_some']
  have hcond : ¬ (b' = b ∧ curDate - 7 ≤ d ∧ d ≤ curDate - 1
      ∧ (lbl, nt).1 = "no_conversion") := by
    intro hc
    exact hlbl hc.2.2.2
  rw [if_neg hcond]

theorem markConversionEvent_future (t : AggregatedTable) (b : String) (curDate : Int)
    (purchaseTime : Int) (b' : String) (d : Int) (hd : curDate ≤ d) :
    tableLookup (markConversionEvent t b curDate purchaseTime) b' d = tableLookup t b' d
    ∨ (d = curDate ∧ tableLookup (markConversionEvent t b curDate purchaseTime) b' d
        = none) := by
  rw [markConversionEvent_lookup]
  by_cases hbd : b' = b ∧ d = curDate
  · right
    rw [if_pos hbd]
    exact ⟨hbd.2, rfl⟩
  · left
    rw [if_neg hbd]
    rcases hlk : tableLookup t b' d with _ | v
    · rfl
    · simp only [Option.map_some']
      have hcond : ¬ (b' = b ∧ curDate - 7 ≤ d ∧ d ≤ curDate - 1
          ∧ v.1 = "no_conversion") := by
        intro hc
        omega
      rw [if_neg hcond]

/-- The shape of one scan step: the table is either untouched or updated by
one mark_conversion_event call at the current date. -/
theorem processCommerce_table_shape (curDate : Int) (st : ParserState) (c : Commerce) :
    (processCommerce curDate st c).table = st.table
    ∨ ∃ b pt, (processCommerce curDate st c).table
        = markConversionEvent st.table b curDate pt := by
  unfold processCommerce
  split
  · exact Or.inl rfl
  · split
    · split
      · exact Or.inl rfl
      · split
        · exact Or.inr ⟨(dictLookup st.browserIdOf c.userId).getD "", c.time, rfl⟩
        · exact Or.inl rfl
    · exact Or.inl rfl

/-- The no-overwrite invariant: a day strictly before or after the current
date whose label is not no_conversion keeps its row unchanged. -/
def PreservesSetLabels (curDate : Int) (t0 t1 : AggregatedTable) : Prop :=
  ∀ b d lbl nt, ¬ lbl = "no_conversion" → ¬ d = curDate →
    tableLookup t0 b d = some (lbl, nt) → tableLookup t1 b d = some (lbl, nt)

/-- The no-future-labeling invariant: on or after the current date a row is
either unchanged or deleted (the latter only on the current date itself). -/
def NoFutureLabels (curDate : Int) (t0 t1 : AggregatedTable) : Prop :=
  ∀ b d, curDate ≤ d →
    tableLookup t1 b d = tableLookup t0 b d
    ∨ (d = curDate ∧ tableLookup t1 b d = none)

theorem preservesSetLabels_mark (curDate : Int) (t0 t1 : AggregatedTable)
    (h : PreservesSetLabels curDate t0 t1) (b : String) (pt : Int) :
    PreservesSetLabels curDate t0 (markConversionEvent t1 b curDate pt) := by
  intro b' d lbl nt hlbl hd hlk
  exact markConversionEvent_preserves t1 b curDate pt b' d lbl nt hlbl hd
    (h b' d lbl nt hlbl hd hlk)

theorem noFutureLabels_mark (curDate : Int) (t0 t1 : AggregatedTable)
    (h : NoFutureLabels curDate t0 t1) (b : String) (pt : Int) :
    NoFutureLabels curDate t0 (markConversionEvent t1 b curDate pt) := by
  intro b' d hd
  rcases markConversionEvent_future t1 b curDate pt b' d hd with h1 | h1
  · rcases h b' d hd with h2 | h2
    · exact Or.inl (h1.trans h2)
    · exact Or.inr ⟨h2.1, h1.trans h2.2⟩
  · exact Or.inr h1

theorem processFold_preserves (curDate : Int) (l : List Commerce) (st : ParserState)
    (t0 : AggregatedTable)
    (h1 : PreservesSetLabels curDate t0 st.table)
    (h2 : NoFutureLabels curDate t0 st.table) :
    PreservesSetLabels curDate t0 (l.foldl (processCommerce curDate) st).table
    ∧ NoFutureLabels curDate t0 (l.foldl (processCommerce curDate) st).table := by
  induction l generalizing st with
  | nil => exact ⟨h1, h2⟩
  | cons c rest ih =>
    rw [List.foldl_cons]
    apply ih
    · rcases processCommerce_table_shape curDate st c with hsh | ⟨b, pt, hsh⟩
      · rw [hsh]
        exact h1
      · rw [hsh]
        exact preservesSetLabels_mark curDate t0 st.table h1 b pt
    · rcases processCommerce_table_shape curDate st c with hsh | ⟨b, pt, hsh⟩
      · rw [hsh]
        exact h2
      · rw [hsh]
        exact noFutureLabels_mark curDate t0 st.table h2 b pt

/-- C9 amended: a payment event followed within five minutes by a purchase
event of the same user triggers mark_conversion_event, which deletes the
(browser, event-day) row from the aggregated table and sets the labels of the
seven days directly before the event day from no_conversion to conversion
with the purchase time recorded; across a whole file scan, a day whose label
was already set to something other than no_conversion is never overwritten,
and no day on or after the event day ever has its row changed by the scan
beyond the deletion of the event day itself. -/
theorem conversion_marking_amended (data : List Commerce) (curDate : Int)
    (t : AggregatedTable) (b : String) (purchaseTime : Int) :
    (∀ d nt, curDate - 7 ≤ d → d ≤ curDate - 1 →
      tableLookup t b d = some ("no_conversion", nt) →
      tableLookup (markConversionEvent t b curDate purchaseTime) b d
        = some ("conversion", some purchaseTime))
    ∧ (∀ b' d lbl nt, ¬ lbl = "no_conversion" → ¬ d = curDate →
        tableLookup t b' d = some (lbl, nt) →
        tableLookup (processFile data curDate t).table b' d = some (lbl, nt))
    ∧ (∀ b' d, curDate ≤ d →
        tableLookup (processFile data curDate t).table b' d = tableLookup t b' d
        ∨ (d = curDate ∧ tableLookup (processFile data curDate t).table b' d = none)) := by
  have hfold := processFold_preserves curDate (sortByTime data) ⟨[], [], t, []⟩ t
    (fun b' d lbl nt _ _ hlk => hlk) (fun b' d _ => Or.inl rfl)
  exact ⟨fun d nt h7 h1 hlk =>
      markConversionEvent_marks t b curDate purchaseTime d nt h7 h1 hlk,
    hfold.1, hfold.2⟩

/-- C9 counterexample: browser b1 has the row (b1, day 10) labelled
no_conversion; the commerce file of day 10 holds a payment of user u1 at
minute 100 and a purchase of u1 at minute 103 (within five minutes), so the
conversion triggers — yet after the scan the (b1, day 10) row is deleted, not
labelled conversion, refuting the claim that the browser's event day itself
is labelled conversion; the collected events table row shows the trigger
fired. -/
theorem conversion_marking_counterexample :
    (tableLookup (processFile
        [⟨"b1", 100, "u1", "payment"⟩, ⟨"", 103, "u1", "purchase"⟩] 10
        [(("b1", 10), ("no_conversion", none))]).table "b1" 10 = none)
    ∧ ((processFile
        [⟨"b1", 100, "u1", "payment"⟩, ⟨"", 103, "u1", "purchase"⟩] 10
        [(("b1", 10), ("no_conversion", none))]).events
      = [("u1", "b1", 103, "conversion")])
    ∧ (tableLookup [(("b1", 10), ("no_conversion", none))] "b1" 10
      = some ("no_conversion", none)) := by
  refine ⟨by decide, by decide, by decide⟩

/-- C9 amended witness: with the same file, the row (b1, day 9) labelled
no_conversion is marked conversion by the mark call, a row (b2, day 5)
already labelled shared_account_login survives the scan unchanged, and the
row (b1, day 12) after the event day is untouched. -/
theorem conversion_marking_amended_witness :
    (tableLookup (markConversionEvent
        [(("b1", 9), ("no_conversion", none))] "b1" 10 103) "b1" 9
      = some ("conversion", some 103))
    ∧ (tableLookup (processFile
        [⟨"b1", 100, "u1", "payment"⟩, ⟨"", 103, "u1", "purchase"⟩] 10
        [(("b1", 9), ("no_conversion", none)),
         (("b2", 5), ("shared_account_login", some 77))]).table "b2" 5
      = some ("shared_account_login", some 77))
    ∧ (tableLookup (processFile
        [⟨"b1", 100, "u1", "payment"⟩, ⟨"", 103, "u1", "purchase"⟩] 10
        [(("b1", 12), ("no_conversion", none))]).table "b1" 12
      = tableLookup [(("b1", 12), ("no_conversion", none))] "b1" 12
      ∨ ((12 : Int) = 10 ∧ tableLookup (processFile
        [⟨"b1", 100, "u1", "payment"⟩, ⟨"", 103, "u1", "purchase"⟩] 10
        [(("b1", 12), ("no_conversion", none))]).table "b1" 12 = none)) :=
  ⟨(conversion_marking_amended
      [⟨"b1", 100, "u1", "payment"⟩, ⟨"", 103, "u1", "purchase"⟩] 10
      [(("b1", 9), ("no_conversion", none))] "b1" 103).1 9 none
      (by decide) (by decide) (by decide),
   (conversion_marking_amended
      [⟨"b1", 100, "u1", "payment"⟩, ⟨"", 103, "u1", "purchase"⟩] 10
      [(("b1", 9), ("no_conversion", none)),
       (("b2", 5), ("shared_account_login", some 77))] "b1" 103).2.1
      "b2" 5 "shared_account_login" (some 77) (by decide) (by decide) (by decide),
   (conversion_marking_amended
      [⟨"b1", 100, "u1", "payment"⟩, ⟨"", 103, "u1", "purchase"⟩] 10
      [(("b1", 12), ("no_conversion", none))] "b1" 103).2.2 "b1" 12 (by decide)⟩

end Pythia
